import Mathlib

/-!
Verification development for the Instagram Notes Manager Bot
(`bot.py` and `login_once.py`): a Telegram bot that manages Instagram
Notes across multiple accounts.

The Python source is shallowly embedded: pure computations become Lean
functions, the module-level mutable globals (`accounts`, `account_list`,
`pending_action`, `waiting_for_2fa`, per-account cached clients) become
explicit state records threaded through transition functions, and each
remote instagrapi call becomes an oracle parameter describing its
outcome (success value, a recognised library exception, or a generic
exception).  Python exceptions that the source lets escape a function
are modelled with `Except`.

Python string primitives (`split` with the single-character separators
`|`, `=`, `:` used by the source, `strip`, `in`, `join`) are modelled
structurally over `List Char` so that the kernel can evaluate them.
-/

namespace IGBot

/-- Opaque stand-in for an authenticated `instagrapi.Client` object. -/
structure Handle where
  hid : Nat
deriving DecidableEq, Repr

/-! ## Python string primitives -/

/-- Python `s.split(sep)` for a single-character separator:
`"".split(sep) == [""]`, and empty pieces are kept. -/
def splitChar : List Char → Char → List (List Char)
  | [], _ => [[]]
  | c :: cs, sep =>
    if c = sep then [] :: splitChar cs sep
    else
      match splitChar cs sep with
      | [] => [[c]]
      | h :: t => (c :: h) :: t

/-- Python `s.split(sep, 1)` for a single-character separator that is
known to occur: the pieces before and after its first occurrence
(`(s, [])` when the separator is absent). -/
def splitOnceChar : List Char → Char → List Char × List Char
  | [], _ => ([], [])
  | c :: cs, sep =>
    if c = sep then ([], cs)
    else
      let r := splitOnceChar cs sep
      (c :: r.1, r.2)

/-- Python `sep in s` for a single character. -/
def hasChar (l : List Char) (c : Char) : Bool :=
  l.any (· = c)

/-- Python `s.strip()` (on the source's ASCII inputs). -/
def trimChars (l : List Char) : List Char :=
  ((l.dropWhile Char.isWhitespace).reverse.dropWhile Char.isWhitespace).reverse

/-- Python `sep.join(parts)`. -/
def joinSep (sep : String) : List String → String
  | [] => ""
  | [s] => s
  | s :: rest => s ++ sep ++ joinSep sep rest

/-- Python `s.isdigit()` on the ASCII messages the bot compares against:
nonempty and all characters decimal digits. -/
def pyIsDigit (s : String) : Bool :=
  !s.data.isEmpty && s.data.all Char.isDigit

/-- Python `int(s)` on a string of decimal digits. -/
def strToNat (s : String) : Nat :=
  s.data.foldl (fun a c => 10 * a + (c.toNat - 48)) 0

/-! ## Account Registry (module-level parsing loop of `bot.py`) -/

/-- One parsed account record, as built by the module-level parsing loop
of `bot.py` (the mutable `client` slot is modelled separately as state). -/
structure AccountRecord where
  username : String
  password : String
  session_file : String
deriving DecidableEq, Repr

/-- Association-list update with Python-dict semantics: an existing key
keeps its position and gets the new value, a new key is appended. -/
def updAssoc (l : List (String × AccountRecord)) (k : String) (v : AccountRecord) :
    List (String × AccountRecord) :=
  match l with
  | [] => [(k, v)]
  | (k', v') :: t => if k' = k then (k, v) :: t else (k', v') :: updAssoc t k v

/-- The two module-level parsing accumulators of `bot.py`:
`accounts` (name-keyed dict) and `account_list` (names in parse order). -/
structure ParseState where
  accounts : List (String × AccountRecord)
  account_list : List String
deriving DecidableEq, Repr

/-- One iteration of the parsing loop over `INSTA_ACCOUNTS_STR.split('|')`:
strip the segment, skip it if empty, if it lacks `=`, or if the part after
the first `=` lacks `:`; otherwise record the account (with its
`session_{name}.json` session-file path) and append its name. -/
def processPart (st : ParseState) (part0 : List Char) : ParseState :=
  let part := trimChars part0
  if part.isEmpty then st
  else if !(hasChar part '=') then st
  else
    let np := splitOnceChar part '='
    let name : String := ⟨trimChars np.1⟩
    let user_pass := np.2
    if !(hasChar user_pass ':') then st
    else
      let up := splitOnceChar user_pass ':'
      let username : String := ⟨trimChars up.1⟩
      let password : String := ⟨up.2⟩
      { accounts := updAssoc st.accounts name
          ⟨username, password, "session_" ++ name ++ ".json"⟩,
        account_list := st.account_list ++ [name] }

/-- The whole module-level parsing loop of `bot.py` over a configuration
string in `name=username:password|name2=...` form. -/
def parseAccounts (cfg : String) : ParseState :=
  (splitChar cfg.data '|').foldl processPart ⟨[], []⟩

/-- A segment survives the parsing loop's checks exactly when, after
stripping, it is nonempty, contains `=`, and the remainder after the
first `=` contains `:`. -/
def validPart (part0 : List Char) : Bool :=
  let part := trimChars part0
  !part.isEmpty && hasChar part '=' && hasChar (splitOnceChar part '=').2 ':'

/-- Models `if not accounts: exit(1)` — startup is fatal exactly when the parsed
dict is empty. -/
def startupFatal (cfg : String) : Bool :=
  (parseAccounts cfg).accounts.isEmpty

/-- First-appearance deduplication of a name list, used to state the
order of the keys of the parsed dict. -/
def dedupFirst (l : List String) : List String :=
  l.foldl (fun acc x => if x ∈ acc then acc else acc ++ [x]) []

example : parseAccounts "a=u1:p1|b=u2:p2" =
    ⟨[("a", ⟨"u1", "p1", "session_a.json"⟩), ("b", ⟨"u2", "p2", "session_b.json"⟩)],
     ["a", "b"]⟩ := by decide

example : validPart "  ".data = false := by decide
example : validPart "noequals".data = false := by decide
example : validPart "x=nocolon".data = false := by decide
example : validPart "x=u:p".data = true := by decide
example : parseAccounts "a=u1:p1|junk|b=u2:p2" = parseAccounts "a=u1:p1|b=u2:p2" := by decide

/-- The name a valid segment contributes (`part.split('=', 1)[0].strip()`). -/
def partName (p : List Char) : String :=
  ⟨trimChars (splitOnceChar (trimChars p) '=').1⟩

/-- The `user:pass` half of a segment (after the first `=`). -/
def partUserPass (p : List Char) : List Char :=
  (splitOnceChar (trimChars p) '=').2

/-- The record a valid segment contributes. -/
def partRecord (p : List Char) : AccountRecord :=
  ⟨⟨trimChars (splitOnceChar (partUserPass p) ':').1⟩,
   ⟨(splitOnceChar (partUserPass p) ':').2⟩,
   "session_" ++ partName p ++ ".json"⟩

theorem processPart_invalid (st : ParseState) (p : List Char)
    (h : validPart p = false) : processPart st p = st := by
  unfold validPart at h
  unfold processPart
  by_cases h1 : (trimChars p).isEmpty
  · simp [h1]
  · by_cases h2 : hasChar (trimChars p) '='
    · by_cases h3 : hasChar (splitOnceChar (trimChars p) '=').2 ':'
      · exfalso; simp [h1, h2, h3] at h
      · simp [h1, h2, h3]
    · simp [h1, h2]

theorem processPart_valid (st : ParseState) (p : List Char)
    (h : validPart p = true) :
    processPart st p =
      ⟨updAssoc st.accounts (partName p) (partRecord p),
       st.account_list ++ [partName p]⟩ := by
  unfold validPart at h
  simp only [Bool.and_eq_true, Bool.not_eq_true'] at h
  obtain ⟨⟨h1, h2⟩, h3⟩ := h
  unfold processPart partRecord partUserPass partName
  simp [h1, h2, h3]

theorem updAssoc_ne_nil (l : List (String × AccountRecord)) (k : String)
    (v : AccountRecord) : updAssoc l k v ≠ [] := by
  cases l with
  | nil => simp [updAssoc]
  | cons h t =>
    obtain ⟨k', v'⟩ := h
    unfold updAssoc
    split <;> simp

theorem updAssoc_keys (l : List (String × AccountRecord)) (k : String)
    (v : AccountRecord) :
    (updAssoc l k v).map Prod.fst =
      if k ∈ l.map Prod.fst then l.map Prod.fst else l.map Prod.fst ++ [k] := by
  induction l with
  | nil => simp [updAssoc]
  | cons h t ih =>
    obtain ⟨k', v'⟩ := h
    by_cases hk : k' = k
    · subst hk
      simp [updAssoc]
    · by_cases hm : k ∈ t.map Prod.fst
      · simp [updAssoc, hk, hm, ih, Ne.symm hk]
      · simp [updAssoc, hk, hm, ih, Ne.symm hk]

theorem dedupFirst_append_one (l : List String) (k : String) :
    dedupFirst (l ++ [k]) =
      if k ∈ dedupFirst l then dedupFirst l else dedupFirst l ++ [k] := by
  unfold dedupFirst
  rw [List.foldl_append]
  simp

theorem keys_dedup_invariant : ∀ (parts : List (List Char)) (st : ParseState),
    st.accounts.map Prod.fst = dedupFirst st.account_list →
    ((parts.foldl processPart st).accounts.map Prod.fst =
      dedupFirst ((parts.foldl processPart st).account_list)) := by
  intro parts
  induction parts with
  | nil => intro st h; simpa using h
  | cons p rest ih =>
    intro st h
    rw [List.foldl_cons]
    apply ih
    by_cases hv : validPart p = true
    · rw [processPart_valid st p hv]
      simp only
      rw [updAssoc_keys, dedupFirst_append_one, h]
    · rw [processPart_invalid st p (by simpa using hv)]
      exact h

theorem parse_empty_iff : ∀ (parts : List (List Char)) (st : ParseState),
    ((parts.foldl processPart st).accounts = [] ↔
      st.accounts = [] ∧ ∀ p ∈ parts, validPart p = false) := by
  intro parts
  induction parts with
  | nil => intro st; simp
  | cons p rest ih =>
    intro st
    rw [List.foldl_cons, ih]
    by_cases hv : validPart p = true
    · constructor
      · rintro ⟨hacc, _⟩
        exfalso
        rw [processPart_valid st p hv] at hacc
        exact updAssoc_ne_nil _ _ _ hacc
      · rintro ⟨_, hall⟩
        exact absurd (hall p (by simp)) (by simp [hv])
    · have hv' : validPart p = false := by simpa using hv
      rw [processPart_invalid st p hv']
      simp [List.forall_mem_cons, hv']

/-- C6: parsing `a=u1:p1|b=u2:p2` yields exactly the two account records
`a` then `b` in that order; a segment missing `=` or `:` is skipped
without affecting sibling segments; the name-keyed dict's key order is
the order of first appearance of each name in the accepted segments; and
startup exits fatally iff no segment of the configuration is valid
(i.e. iff the resulting account set is empty). -/
theorem C6_account_parsing :
    (parseAccounts "a=u1:p1|b=u2:p2" =
      ⟨[("a", ⟨"u1", "p1", "session_a.json"⟩),
        ("b", ⟨"u2", "p2", "session_b.json"⟩)], ["a", "b"]⟩) ∧
    (∀ (st : ParseState) (xs ys : List (List Char)) (p : List Char),
      validPart p = false →
      (xs ++ p :: ys).foldl processPart st = (xs ++ ys).foldl processPart st) ∧
    (∀ cfg : String,
      (parseAccounts cfg).accounts.map Prod.fst =
        dedupFirst (parseAccounts cfg).account_list) ∧
    (∀ cfg : String,
      startupFatal cfg = true ↔
        ∀ p ∈ splitChar cfg.data '|', validPart p = false) := by
  refine ⟨by decide, ?_, ?_, ?_⟩
  · intro st xs ys p h
    rw [List.foldl_append, List.foldl_append, List.foldl_cons,
      processPart_invalid _ _ h]
  · intro cfg
    exact keys_dedup_invariant _ _ (by simp [dedupFirst])
  · intro cfg
    unfold startupFatal parseAccounts
    rw [List.isEmpty_iff, parse_empty_iff]
    simp

/-- Witness for C6: the skip clause applied at a concrete malformed
segment between two valid siblings. -/
theorem C6_account_parsing_witness :
    (["a=u:p".data] ++ "bad".data :: ["b=v:q".data]).foldl processPart ⟨[], []⟩ =
      (["a=u:p".data] ++ ["b=v:q".data]).foldl processPart ⟨[], []⟩ :=
  C6_account_parsing.2.1 ⟨[], []⟩ ["a=u:p".data] ["b=v:q".data] "bad".data (by decide)

/-! ## Session Manager (`get_client` in `bot.py`)

`get_client(name)` reads `data['client']`, probes a session restored
from disk with `cl.get_timeline_feed()` (catching only `LoginRequired`),
and otherwise logs in with stored credentials (catching
`TwoFactorRequired` and any other `Exception`).  The binding
`data = accounts[name]` is elided in the source file; following the
spec ("acquire(account_name)", name "key in accounts dict"), the
account's mutable record state is passed in directly. -/

/-- Outcome of the session probe `cl.get_timeline_feed()`:
success, the `LoginRequired` exception, or any other exception. -/
inductive ProbeOutcome
  | ok
  | loginRequired
  | raise (e : Nat)
deriving DecidableEq, Repr

/-- Outcome of `cl.login(username, password)`: success, the
`TwoFactorRequired` exception, or any other exception. -/
inductive LoginOutcome
  | ok
  | twoFactorRequired
  | raise (e : Nat)
deriving DecidableEq, Repr

/-- The mutable per-account state `get_client` consults: the cached
`data['client']` slot and whether `session_file.exists()`. -/
structure ClientState where
  client : Option Handle
  sessionFileExists : Bool
deriving DecidableEq, Repr

/-- Observable result of a `get_client` call: its return value, the
cached-client slot afterwards, the global `waiting_for_2fa` afterwards,
and whether `cl.dump_settings(session_file)` ran. -/
structure GetClientOut where
  ret : Option Handle
  client : Option Handle
  waiting2fa : Option String
  dumped : Bool
deriving DecidableEq, Repr

/-- The credential-login tail of `get_client`: `try: cl.login(...)` with
`except TwoFactorRequired` (set the global marker, return `None`) and
`except Exception` (return `None`). -/
def getClientLogin (name : String) (w : Option String) (login : LoginOutcome)
    (fresh : Handle) : Except Nat GetClientOut :=
  match login with
  | .ok => .ok ⟨some fresh, some fresh, w, true⟩
  | .twoFactorRequired => .ok ⟨none, none, some name, false⟩
  | .raise _ => .ok ⟨none, none, w, false⟩

/-- The function `get_client(name)`.  `fresh` stands for the newly constructed
`Client()` object; an `Except.error` models a Python exception escaping
`get_client` to its caller. -/
def getClient (name : String) (st : ClientState) (w : Option String)
    (probe : ProbeOutcome) (login : LoginOutcome) (fresh : Handle) :
    Except Nat GetClientOut :=
  match st.client with
  | some h => .ok ⟨some h, some h, w, false⟩
  | none =>
    if st.sessionFileExists then
      match probe with
      | .ok => .ok ⟨some fresh, some fresh, w, false⟩
      | .loginRequired => getClientLogin name w login fresh
      | .raise e => .error e
    else getClientLogin name w login fresh

/-- C1 counterexample: the claim "`get_client` never propagates an
exception to its caller" is false — with no cached handle and an
existing session file, a probe exception other than `LoginRequired`
escapes `get_client`, because the probe's `try` catches only
`LoginRequired`. -/
theorem C1_get_client_counterexample :
    ¬ (∀ (name : String) (st : ClientState) (w : Option String)
        (probe : ProbeOutcome) (login : LoginOutcome) (fresh : Handle),
        ∃ out, getClient name st w probe login fresh = .ok out) := by
  intro hall
  obtain ⟨out, hout⟩ :=
    hall "personal" ⟨none, true⟩ none (.raise 7) .ok ⟨0⟩
  simp [getClient] at hout

/-- C1 amended: `get_client` propagates an exception exactly when the
session-file probe raises something other than `LoginRequired` (no
cached handle, session file present); every exception of the credential
login is caught — a two-factor challenge sets the process-wide
pending-2FA marker to the account's name and returns no handle, and any
other login failure returns no handle. -/
theorem C1_get_client_amended :
    ∀ (name : String) (st : ClientState) (w : Option String)
      (probe : ProbeOutcome) (login : LoginOutcome) (fresh : Handle),
      ((∃ out, getClient name st w probe login fresh = .ok out) ↔
        ¬ (st.client = none ∧ st.sessionFileExists = true ∧
           ∃ e, probe = .raise e)) ∧
      (st.client = none → (st.sessionFileExists = false ∨ probe = .loginRequired) →
        login = .twoFactorRequired →
        getClient name st w probe login fresh = .ok ⟨none, none, some name, false⟩) ∧
      (∀ e, st.client = none →
        (st.sessionFileExists = false ∨ probe = .loginRequired) →
        login = .raise e →
        getClient name st w probe login fresh = .ok ⟨none, none, w, false⟩) := by
  intro name st w probe login fresh
  obtain ⟨cl, fe⟩ := st
  refine ⟨?_, ?_, ?_⟩
  · cases cl <;> cases fe <;> cases probe <;> cases login <;>
      simp [getClient, getClientLogin]
  · rintro rfl hor rfl
    rcases hor with h | h
    · cases h
      simp [getClient, getClientLogin]
    · cases h
      cases fe <;> simp [getClient, getClientLogin]
  · rintro e rfl hor rfl
    rcases hor with h | h
    · cases h
      simp [getClient, getClientLogin]
    · cases h
      cases fe <;> simp [getClient, getClientLogin]

/-- Witness for C1's amended theorem: a concrete two-factor challenge
during login (no session file) sets the marker and returns no handle. -/
theorem C1_get_client_amended_witness :
    getClient "personal" ⟨none, false⟩ none .loginRequired .twoFactorRequired ⟨0⟩ =
      .ok ⟨none, none, some "personal", false⟩ :=
  (C1_get_client_amended "personal" ⟨none, false⟩ none .loginRequired
    .twoFactorRequired ⟨0⟩).2.1 rfl (Or.inl rfl) rfl

/-! ## Command Router state and oracles

`handle_message` and the command handlers mutate the module globals
`pending_action` (dict keyed by Telegram user id), `waiting_for_2fa`
(process-wide account name), and each account's cached `client` slot.
The elided `user_id = update.effective_user.id` and
`text = update.message.text` bindings of the source handlers are
modelled, following the spec's transport contract ("delivers inbound
text events with sender identity"), as the `user` and `text` parameters.
Each remote call is an oracle field; `acquire` abstracts `get_client`'s
non-raising outcomes (returned handle, plain failure, or a two-factor
challenge that sets the pending-2FA marker — the raising case is
covered by the `getClient` model above). -/

/-- A stored `pending_action` entry: `{'type': 'note', 'text', 'audience'}`
or `{'type': 'delete_note'}`. -/
inductive PAction
  | note (text : String) (audience : Nat)
  | deleteNote
deriving DecidableEq, Repr

/-- Python-dict lookup on an association list with unique keys. -/
def alLookup {α β : Type} [DecidableEq α] : List (α × β) → α → Option β
  | [], _ => none
  | (k, v) :: t, u => if k = u then some v else alLookup t u

/-- Python-dict assignment: existing key keeps its position. -/
def alInsert {α β : Type} [DecidableEq α] (l : List (α × β)) (u : α) (v : β) :
    List (α × β) :=
  match l with
  | [] => [(u, v)]
  | (k, v') :: t => if k = u then (u, v) :: t else (k, v') :: alInsert t u v

/-- Python-dict `pop`. -/
def alErase {α β : Type} [DecidableEq α] : List (α × β) → α → List (α × β)
  | [], _ => []
  | (k, v) :: t, u => if k = u then t else (k, v) :: alErase t u

/-- The mutable globals touched by the message handlers. -/
structure BotState where
  waiting2fa : Option String
  pending : List (Nat × PAction)
  clients : List (String × Handle)
deriving DecidableEq, Repr

/-- Remote side effects a handler performs, in call order. -/
inductive Event
  | twoFALogin (name : String) (code : Nat)
  | dumpSession (file : String)
  | runPending (name : String) (act : PAction)
  | createNote (name text : String) (audience : Nat)
  | deleteNote (name : String)
deriving DecidableEq, Repr

/-- Outcome of `get_client` as seen by its callers: a handle, a plain failure
(`None`), or a two-factor challenge (`None` plus the marker set). -/
inductive AcquireOutcome
  | ok (h : Handle)
  | failPlain
  | fail2fa
deriving DecidableEq, Repr

/-- Outcomes of the remote instagrapi calls a handler makes.
`Except.error e` carries `str(e)` of the raised exception. -/
structure Oracle where
  acquire : String → AcquireOutcome
  twoFALogin : String → Nat → Except String Handle
  createNote : String → String → Nat → Except String String
  activeNote : String → Except String (Option Nat)
  deleteNote : String → Nat → Except String Unit

/-- Result of one inbound message: new state, outbound replies, events. -/
structure HMOut where
  state : BotState
  replies : List String
  events : List Event
deriving DecidableEq, Repr

/-- Python `accounts[name]['username']` (names handed to this function always
exist in the dict in the source's reachable states). -/
def usernameOf (accounts : List (String × AccountRecord)) (name : String) : String :=
  ((alLookup accounts name).getD ⟨"", "", ""⟩).username

/-- Python `accounts[name]['session_file']`. -/
def sessionFileOf (accounts : List (String × AccountRecord)) (name : String) : String :=
  ((alLookup accounts name).getD ⟨"", "", ""⟩).session_file

/-- A handler run that does nothing and sends nothing. -/
def hmNoop (st : BotState) : HMOut := ⟨st, [], []⟩

/-- The 2FA-completion body of `handle_message` (`bot.py` lines 308-323):
reply "Verifying 2FA...", fresh `cl.login(..., verification_code=int(text))`;
on success dump the session, cache the client, clear the marker; on any
exception clear the marker and report; either way return. -/
def hmTwoFA (accounts : List (String × AccountRecord)) (o : Oracle)
    (st : BotState) (name : String) (code : Nat) : HMOut :=
  match o.twoFALogin name code with
  | .ok h =>
    ⟨{ st with waiting2fa := none, clients := alInsert st.clients name h },
     ["Verifying 2FA...", s!"2FA success for {name}! Ready."],
     [.twoFALogin name code, .dumpSession (sessionFileOf accounts name)]⟩
  | .error e =>
    ⟨{ st with waiting2fa := none },
     ["Verifying 2FA...", s!"2FA failed: {e}"],
     [.twoFALogin name code]⟩

/-- Execution of a popped pending action (`bot.py` lines 334-352), after
`get_client` returned a handle: the client is cached, the entry popped,
then the action body runs with its own try/except. -/
def hmExec (accounts : List (String × AccountRecord)) (o : Oracle)
    (st : BotState) (user : Nat) (name : String) (h : Handle)
    (action : PAction) : HMOut :=
  let st1 : BotState :=
    { st with clients := alInsert st.clients name h,
              pending := alErase st.pending user }
  match action with
  | .note t a =>
    let aud := if a = 1 then "Close Friends" else "Mutual Followers"
    let uname := usernameOf accounts name
    match o.createNote name t a with
    | .ok noteText =>
      ⟨st1, [s!"Posted to {aud} (@{uname}):\n'{noteText}'"],
       [.runPending name (.note t a), .createNote name t a]⟩
    | .error e =>
      ⟨st1, [s!"Failed: {e}"], [.runPending name (.note t a), .createNote name t a]⟩
  | .deleteNote =>
    match o.activeNote name with
    | .error e => ⟨st1, [s!"Error: {e}"], [.runPending name .deleteNote]⟩
    | .ok none => ⟨st1, ["No note to delete."], [.runPending name .deleteNote]⟩
    | .ok (some nid) =>
      match o.deleteNote name nid with
      | .ok _ =>
        ⟨st1, ["Note deleted."], [.runPending name .deleteNote, .deleteNote name]⟩
      | .error e =>
        ⟨st1, [s!"Error: {e}"], [.runPending name .deleteNote, .deleteNote name]⟩

/-- The account-selection tail of `handle_message` (`bot.py` lines
326-352): fires when the sender has a stored pending action and the text
is numeric; silently ignores an out-of-range index; on login failure
replies and leaves the pending action stored. -/
def hmSelection (accounts : List (String × AccountRecord))
    (account_list : List String) (o : Oracle) (st : BotState)
    (user : Nat) (text : String) : HMOut :=
  match alLookup st.pending user, pyIsDigit text with
  | some action, true =>
    let choice := strToNat text
    if 1 ≤ choice ∧ choice ≤ account_list.length then
      let name := account_list.getD (choice - 1) ""
      match o.acquire name with
      | .fail2fa =>
        ⟨{ st with waiting2fa := some name },
         ["Login failed. Send 2FA if prompted."], []⟩
      | .failPlain => ⟨st, ["Login failed. Send 2FA if prompted."], []⟩
      | .ok h => hmExec accounts o st user name h action
    else hmNoop st
  | _, _ => hmNoop st

/-- The handler `handle_message` (`bot.py` lines 296-352): the 2FA branch runs first
(pending marker set, sender authorized, text exactly 6 digits) and
returns; in every other case control reaches the selection branch. -/
def handleMessage (allowed : Nat) (accounts : List (String × AccountRecord))
    (account_list : List String) (o : Oracle) (st : BotState)
    (user : Nat) (text : String) : HMOut :=
  match st.waiting2fa with
  | some name =>
    if user = allowed then
      if pyIsDigit text && text.length == 6 then
        hmTwoFA accounts o st name (strToNat text)
      else hmSelection accounts account_list o st user text
    else hmSelection accounts account_list o st user text
  | none => hmSelection accounts account_list o st user text

/-- Number of deferred-action executions recorded in an event list. -/
def runCount (evs : List Event) : Nat :=
  (evs.filter fun ev =>
    match ev with
    | .runPending _ _ => true
    | _ => false).length

/-- One numbered line of the account-selection menu. -/
def menuLine (accounts : List (String × AccountRecord)) (i : Nat)
    (name : String) : String :=
  let uname := usernameOf accounts name
  s!"{i}. {name} (@{uname})"

/-- The lines of the `/note` selection menu, in `account_list` order. -/
def noteMenuLines (accounts : List (String × AccountRecord))
    (account_list : List String) : List String :=
  "Which account?" ::
    ((List.range account_list.length).map fun i =>
      menuLine accounts (i + 1) (account_list.getD i "")) ++
    ["\nReply with the number"]

/-- The `/note` selection menu text. -/
def noteMenu (accounts : List (String × AccountRecord))
    (account_list : List String) : String :=
  joinSep "\n" (noteMenuLines accounts account_list)

/-- The handler `handle_note_command` (`bot.py` lines 177-214), shared by `/note`
(audience 0) and `/note_cf` (audience 1). -/
def handleNoteCommand (allowed : Nat) (accounts : List (String × AccountRecord))
    (account_list : List String) (o : Oracle) (st : BotState)
    (user : Nat) (args : List String) (audience : Nat) : HMOut :=
  if user ≠ allowed then hmNoop st
  else if args.isEmpty then ⟨st, ["Please add text after the command."], []⟩
  else
    let text := joinSep " " args
    if 60 < text.length then ⟨st, ["Too long! Max 60 characters."], []⟩
    else if account_list.length = 1 then
      let name := account_list.getD 0 ""
      match o.acquire name with
      | .fail2fa =>
        ⟨{ st with waiting2fa := some name },
         ["Login failed. Send 2FA code if prompted."], []⟩
      | .failPlain => ⟨st, ["Login failed. Send 2FA code if prompted."], []⟩
      | .ok h =>
        let st1 : BotState := { st with clients := alInsert st.clients name h }
        let aud := if audience = 1 then "Close Friends" else "Mutual Followers"
        let uname := usernameOf accounts name
        match o.createNote name text audience with
        | .ok noteText =>
          ⟨st1, [s!"Posted to {aud} (@{uname}):\n'{noteText}'"],
           [.createNote name text audience]⟩
        | .error e => ⟨st1, [s!"Failed: {e}"], [.createNote name text audience]⟩
    else
      ⟨{ st with pending := alInsert st.pending user (.note text audience) },
       [noteMenu accounts account_list], []⟩

/-! ## Association-list and handler lemmas -/

theorem alLookup_insert_self {α β : Type} [DecidableEq α]
    (l : List (α × β)) (u : α) (v : β) : alLookup (alInsert l u v) u = some v := by
  induction l with
  | nil => simp [alInsert, alLookup]
  | cons p t ih =>
    obtain ⟨k, v'⟩ := p
    by_cases hk : k = u <;> simp [alInsert, alLookup, hk, ih]

theorem alLookup_eq_none_of_not_mem {α β : Type} [DecidableEq α]
    (l : List (α × β)) (u : α) (h : u ∉ l.map Prod.fst) : alLookup l u = none := by
  induction l with
  | nil => rfl
  | cons p t ih =>
    obtain ⟨k, v⟩ := p
    simp only [List.map_cons, List.mem_cons] at h
    push_neg at h
    simp [alLookup, Ne.symm h.1, ih h.2]

theorem alLookup_erase_self {α β : Type} [DecidableEq α]
    (l : List (α × β)) (u : α) (hnd : (l.map Prod.fst).Nodup) :
    alLookup (alErase l u) u = none := by
  induction l with
  | nil => rfl
  | cons p t ih =>
    obtain ⟨k, v⟩ := p
    simp only [List.map_cons, List.nodup_cons] at hnd
    by_cases hk : k = u
    · subst hk
      simpa [alErase] using alLookup_eq_none_of_not_mem t k hnd.1
    · simp [alErase, hk, alLookup, ih hnd.2]

theorem hmExec_state (accounts : List (String × AccountRecord)) (o : Oracle)
    (st : BotState) (user : Nat) (name : String) (h : Handle) (action : PAction) :
    (hmExec accounts o st user name h action).state =
      ⟨st.waiting2fa, alErase st.pending user, alInsert st.clients name h⟩ := by
  unfold hmExec
  cases action with
  | note t a => rcases hc : o.createNote name t a with e | nt <;> simp [hc]
  | deleteNote =>
    rcases hn : o.activeNote name with e | ono
    · simp [hn]
    · cases ono with
      | none => simp [hn]
      | some nid => rcases hd : o.deleteNote name nid with e | u <;> simp [hn, hd]

theorem hmExec_runCount (accounts : List (String × AccountRecord)) (o : Oracle)
    (st : BotState) (user : Nat) (name : String) (h : Handle) (action : PAction) :
    runCount (hmExec accounts o st user name h action).events = 1 := by
  unfold hmExec
  cases action with
  | note t a => rcases hc : o.createNote name t a with e | nt <;> simp [hc, runCount]
  | deleteNote =>
    rcases hn : o.activeNote name with e | ono
    · simp [hn, runCount]
    · cases ono with
      | none => simp [hn, runCount]
      | some nid =>
        rcases hd : o.deleteNote name nid with e | u <;> simp [hn, hd, runCount]

theorem hmExec_runPending_mem (accounts : List (String × AccountRecord)) (o : Oracle)
    (st : BotState) (user : Nat) (name : String) (h : Handle) (action : PAction) :
    Event.runPending name action ∈ (hmExec accounts o st user name h action).events := by
  unfold hmExec
  cases action with
  | note t a => rcases hc : o.createNote name t a with e | nt <;> simp [hc]
  | deleteNote =>
    rcases hn : o.activeNote name with e | ono
    · simp [hn]
    · cases ono with
      | none => simp [hn]
      | some nid => rcases hd : o.deleteNote name nid with e | u <;> simp [hn, hd]

theorem hmExec_no_twofa (accounts : List (String × AccountRecord)) (o : Oracle)
    (st : BotState) (user : Nat) (name : String) (h : Handle) (action : PAction) :
    ∀ ev ∈ (hmExec accounts o st user name h action).events,
      ∀ n c, ev ≠ Event.twoFALogin n c := by
  unfold hmExec
  cases action with
  | note t a => rcases hc : o.createNote name t a with e | nt <;> simp [hc]
  | deleteNote =>
    rcases hn : o.activeNote name with e | ono
    · simp [hn]
    · cases ono with
      | none => simp [hn]
      | some nid => rcases hd : o.deleteNote name nid with e | u <;> simp [hn, hd]

theorem hmSelection_no_twofa (accounts : List (String × AccountRecord))
    (account_list : List String) (o : Oracle) (st : BotState)
    (user : Nat) (text : String) :
    ∀ ev ∈ (hmSelection accounts account_list o st user text).events,
      ∀ n c, ev ≠ Event.twoFALogin n c := by
  unfold hmSelection
  rcases hl : alLookup st.pending user with _ | action
  · simp [hmNoop]
  · rcases hd : pyIsDigit text
    · simp [hmNoop]
    · simp only
      split
      · rcases ha : o.acquire (account_list.getD (strToNat text - 1) "") with h | _ | _
        · simp only [ha]
          exact hmExec_no_twofa accounts o st user _ h action
        · simp [ha]
        · simp [ha]
      · simp [hmNoop]

theorem handleMessage_of_no2fa (allowed : Nat)
    (accounts : List (String × AccountRecord)) (account_list : List String)
    (o : Oracle) (st : BotState) (user : Nat) (text : String)
    (hw : st.waiting2fa = none) :
    handleMessage allowed accounts account_list o st user text =
      hmSelection accounts account_list o st user text := by
  unfold handleMessage
  rw [hw]

theorem handleMessage_twofa (allowed : Nat)
    (accounts : List (String × AccountRecord)) (account_list : List String)
    (o : Oracle) (st : BotState) (user : Nat) (text : String) (name : String)
    (hw : st.waiting2fa = some name) (hu : user = allowed)
    (hd : pyIsDigit text = true) (hl : text.length = 6) :
    handleMessage allowed accounts account_list o st user text =
      hmTwoFA accounts o st name (strToNat text) := by
  unfold handleMessage
  rw [hw]
  simp [hu, hd, hl]

theorem hmSelection_nopending (accounts : List (String × AccountRecord))
    (account_list : List String) (o : Oracle) (st : BotState)
    (user : Nat) (text : String)
    (hpa : alLookup st.pending user = none) :
    hmSelection accounts account_list o st user text = hmNoop st := by
  unfold hmSelection
  simp [hpa]

theorem hmSelection_acquire_ok (accounts : List (String × AccountRecord))
    (account_list : List String) (o : Oracle) (st : BotState)
    (user : Nat) (text : String) (action : PAction) (h : Handle)
    (hpa : alLookup st.pending user = some action)
    (hd : pyIsDigit text = true)
    (h1 : 1 ≤ strToNat text) (h2 : strToNat text ≤ account_list.length)
    (hacq : o.acquire (account_list.getD (strToNat text - 1) "") = .ok h) :
    hmSelection accounts account_list o st user text =
      hmExec accounts o st user (account_list.getD (strToNat text - 1) "") h action := by
  unfold hmSelection
  simp only [hpa, hd]
  rw [if_pos ⟨h1, h2⟩]
  simp only [hacq]

/-- Shared concrete fixtures: a two-account registry and an oracle on
which every remote call succeeds. -/
def cAccounts : List (String × AccountRecord) :=
  [("a", ⟨"ua", "pa", "session_a.json"⟩), ("b", ⟨"ub", "pb", "session_b.json"⟩)]

def cAccountList : List String := ["a", "b"]

def cOracle : Oracle where
  acquire := fun _ => .ok ⟨5⟩
  twoFALogin := fun _ _ => .ok ⟨6⟩
  createNote := fun _ t _ => .ok t
  activeNote := fun _ => .ok none
  deleteNote := fun _ _ => .ok ()

/-- C2: a 2FA completion attempt (6-digit numeric text from the
authorized operator while a challenge is pending) always clears the
pending-2FA marker; on login success the session is dumped to the
account's session file and the handle cached; on failure only the login
attempt happens; and re-sending the same code afterwards performs no
further 2FA login attempt. -/
theorem C2_twofa_completion :
    ∀ (allowed : Nat) (accounts : List (String × AccountRecord))
      (account_list : List String) (o : Oracle) (st : BotState)
      (user : Nat) (text : String) (name : String),
      st.waiting2fa = some name → user = allowed →
      pyIsDigit text = true → text.length = 6 →
      ((handleMessage allowed accounts account_list o st user text).state.waiting2fa
          = none) ∧
      (∀ h, o.twoFALogin name (strToNat text) = .ok h →
        (handleMessage allowed accounts account_list o st user text).events =
          [Event.twoFALogin name (strToNat text),
           Event.dumpSession (sessionFileOf accounts name)] ∧
        alLookup (handleMessage allowed accounts account_list o st user
          text).state.clients name = some h) ∧
      (∀ e, o.twoFALogin name (strToNat text) = .error e →
        (handleMessage allowed accounts account_list o st user text).events =
          [Event.twoFALogin name (strToNat text)]) ∧
      (∀ ev ∈ (handleMessage allowed accounts account_list o
          (handleMessage allowed accounts account_list o st user text).state
          user text).events,
        ∀ n c, ev ≠ Event.twoFALogin n c) := by
  intro allowed accounts account_list o st user text name hw hu hd hl
  rw [handleMessage_twofa allowed accounts account_list o st user text name hw hu hd hl]
  have hwnone : (hmTwoFA accounts o st name (strToNat text)).state.waiting2fa = none := by
    unfold hmTwoFA
    rcases ht : o.twoFALogin name (strToNat text) with e | h <;> simp [ht]
  refine ⟨hwnone, ?_, ?_, ?_⟩
  · intro h ht
    simp [hmTwoFA, ht, alLookup_insert_self]
  · intro e ht
    simp [hmTwoFA, ht]
  · rw [handleMessage_of_no2fa allowed accounts account_list o _ user text hwnone]
    exact hmSelection_no_twofa accounts account_list o _ user text

/-- Witness for C2 at a concrete pending challenge and code. -/
theorem C2_twofa_completion_witness :
    (handleMessage 1 cAccounts cAccountList cOracle
      ⟨some "a", [], []⟩ 1 "123456").state.waiting2fa = none :=
  (C2_twofa_completion 1 cAccounts cAccountList cOracle
    ⟨some "a", [], []⟩ 1 "123456" "a" rfl rfl (by decide) (by decide)).1

/-- C3: with no 2FA pending, a numeric reply from an operator holding a
stored PendingAction that is a valid 1-based index, for an account whose
handle is acquired, runs the deferred action exactly once and removes
the PendingAction; the identical second reply runs nothing. -/
theorem C3_pending_consumed_once :
    ∀ (allowed : Nat) (accounts : List (String × AccountRecord))
      (account_list : List String) (o : Oracle) (st : BotState)
      (user : Nat) (text : String) (action : PAction) (h : Handle),
      st.waiting2fa = none →
      (st.pending.map Prod.fst).Nodup →
      alLookup st.pending user = some action →
      pyIsDigit text = true →
      1 ≤ strToNat text → strToNat text ≤ account_list.length →
      o.acquire (account_list.getD (strToNat text - 1) "") = .ok h →
      (runCount (handleMessage allowed accounts account_list o st user text).events
          = 1 ∧
       Event.runPending (account_list.getD (strToNat text - 1) "") action ∈
         (handleMessage allowed accounts account_list o st user text).events ∧
       alLookup (handleMessage allowed accounts account_list o st user
         text).state.pending user = none ∧
       runCount (handleMessage allowed accounts account_list o
         (handleMessage allowed accounts account_list o st user text).state
         user text).events = 0) := by
  intro allowed accounts account_list o st user text action h hw hnd hpa hd h1 h2 hacq
  rw [handleMessage_of_no2fa allowed accounts account_list o st user text hw,
    hmSelection_acquire_ok accounts account_list o st user text action h hpa hd h1 h2 hacq]
  have hstate := hmExec_state accounts o st user
    (account_list.getD (strToNat text - 1) "") h action
  refine ⟨hmExec_runCount _ _ _ _ _ _ _, hmExec_runPending_mem _ _ _ _ _ _ _, ?_, ?_⟩
  · rw [hstate]
    exact alLookup_erase_self st.pending user hnd
  · rw [handleMessage_of_no2fa allowed accounts account_list o _ user text
      (by rw [hstate]; exact hw),
      hmSelection_nopending accounts account_list o _ user text
      (by rw [hstate]; exact alLookup_erase_self st.pending user hnd)]
    rfl

/-- Witness for C3: operator 1 replies "1" to a stored note action. -/
theorem C3_pending_consumed_once_witness :
    runCount (handleMessage 1 cAccounts cAccountList cOracle
      ⟨none, [(1, .note "hi" 0)], []⟩ 1 "1").events = 1 :=
  (C3_pending_consumed_once 1 cAccounts cAccountList cOracle
    ⟨none, [(1, .note "hi" 0)], []⟩ 1 "1" (.note "hi" 0) ⟨5⟩
    rfl (by decide) (by decide) (by decide) (by decide) (by decide) (by decide)).1

/-- C9: with a stored PendingAction and no 2FA pending, an out-of-range
numeric reply changes nothing and produces no response at all; a valid
index whose account login fails (plainly or via a 2FA challenge) runs no
action, leaves the PendingAction stored, and reports the login failure. -/
theorem C9_selection_failures :
    ∀ (allowed : Nat) (accounts : List (String × AccountRecord))
      (account_list : List String) (o : Oracle) (st : BotState)
      (user : Nat) (text : String) (action : PAction),
      st.waiting2fa = none →
      alLookup st.pending user = some action →
      pyIsDigit text = true →
      ((¬ (1 ≤ strToNat text ∧ strToNat text ≤ account_list.length)) →
        handleMessage allowed accounts account_list o st user text = ⟨st, [], []⟩) ∧
      ((o.acquire (account_list.getD (strToNat text - 1) "") = .failPlain ∨
        o.acquire (account_list.getD (strToNat text - 1) "") = .fail2fa) →
        1 ≤ strToNat text → strToNat text ≤ account_list.length →
        runCount (handleMessage allowed accounts account_list o st user text).events
            = 0 ∧
        alLookup (handleMessage allowed accounts account_list o st user
          text).state.pending user = some action ∧
        (handleMessage allowed accounts account_list o st user text).replies =
          ["Login failed. Send 2FA if prompted."]) := by
  intro allowed accounts account_list o st user text action hw hpa hd
  rw [handleMessage_of_no2fa allowed accounts account_list o st user text hw]
  constructor
  · intro hnr
    unfold hmSelection
    simp only [hpa, hd]
    rw [if_neg hnr]
    rfl
  · intro hacq h1 h2
    unfold hmSelection
    simp only [hpa, hd]
    rw [if_pos ⟨h1, h2⟩]
    rcases hacq with hacq | hacq <;>
      simp only [hacq] <;> simp [runCount, hpa]

/-- Witness for C9: out-of-range reply "9" with two accounts is ignored. -/
theorem C9_selection_failures_witness :
    handleMessage 1 cAccounts cAccountList cOracle
      ⟨none, [(1, .note "hi" 0)], []⟩ 1 "9" =
      ⟨⟨none, [(1, .note "hi" 0)], []⟩, [], []⟩ :=
  (C9_selection_failures 1 cAccounts cAccountList cOracle
    ⟨none, [(1, .note "hi" 0)], []⟩ 1 "9" (.note "hi" 0)
    rfl (by decide) (by decide)).1 (by decide)

/-- C5 counterexample: with a 2FA challenge pending for account `a` and
a PendingAction stored for the operator, the numeric reply "2" is NOT
routed to 2FA completion — it is consumed as an account selection (the
deferred action runs on account `b` and the PendingAction is popped),
because the 2FA branch only handles texts of exactly 6 digits and falls
through otherwise. -/
theorem C5_priority_counterexample :
    pyIsDigit "2" = true ∧
    (handleMessage 1 cAccounts cAccountList cOracle
      ⟨some "a", [(1, PAction.note "hi" 0)], []⟩ 1 "2").events =
      [Event.runPending "b" (PAction.note "hi" 0), Event.createNote "b" "hi" 0] ∧
    alLookup (handleMessage 1 cAccounts cAccountList cOracle
      ⟨some "a", [(1, PAction.note "hi" 0)], []⟩ 1 "2").state.pending 1 = none := by
  decide

/-- C5 amended: when both a pending 2FA challenge and a PendingAction
exist, a numeric reply of exactly 6 digits from the authorized operator
is routed to 2FA completion and is never consumed as an account
selection (no deferred action runs, the PendingAction stays stored); a
numeric reply of any other length bypasses the 2FA branch entirely and
is handled by the account-selection logic. -/
theorem C5_priority_amended :
    ∀ (allowed : Nat) (accounts : List (String × AccountRecord))
      (account_list : List String) (o : Oracle) (st : BotState)
      (user : Nat) (text : String) (name : String) (action : PAction),
      st.waiting2fa = some name →
      alLookup st.pending user = some action →
      user = allowed →
      pyIsDigit text = true →
      ((text.length = 6 →
        (handleMessage allowed accounts account_list o st user text =
          hmTwoFA accounts o st name (strToNat text)) ∧
        Event.twoFALogin name (strToNat text) ∈
          (handleMessage allowed accounts account_list o st user text).events ∧
        runCount (handleMessage allowed accounts account_list o st user
          text).events = 0 ∧
        alLookup (handleMessage allowed accounts account_list o st user
          text).state.pending user = some action) ∧
      (text.length ≠ 6 →
        handleMessage allowed accounts account_list o st user text =
          hmSelection accounts account_list o st user text)) := by
  intro allowed accounts account_list o st user text name action hw hpa hu hd
  constructor
  · intro hlen
    rw [handleMessage_twofa allowed accounts account_list o st user text name hw hu hd hlen]
    refine ⟨rfl, ?_, ?_, ?_⟩ <;>
      rcases ht : o.twoFALogin name (strToNat text) with e | h <;>
        simp [hmTwoFA, ht, runCount, hpa]
  · intro hlen
    unfold handleMessage
    rw [hw]
    simp [hu, hd, hlen]

/-- Witness for C5's amended theorem: a 6-digit code with both states
pending runs no deferred action. -/
theorem C5_priority_amended_witness :
    runCount (handleMessage 1 cAccounts cAccountList cOracle
      ⟨some "a", [(1, PAction.note "hi" 0)], []⟩ 1 "123456").events = 0 :=
  (((C5_priority_amended 1 cAccounts cAccountList cOracle
    ⟨some "a", [(1, PAction.note "hi" 0)], []⟩ 1 "123456" "a" (PAction.note "hi" 0)
    rfl (by decide) rfl (by decide)).1 (by decide)).2.2).1

/-- C4: `post_note` from the authorized operator rejects empty input
with a user-facing message; rejects text longer than 60 characters
(joined from the command arguments); with exactly one configured account
and an acquired handle it posts immediately, storing no PendingAction;
with two or more accounts it posts nothing, stores a PendingAction with
the text and audience under the operator's id (overwriting any earlier
one), and sends the numbered account menu, whose line `i+1` names
account `i` of the registry order. -/
theorem C4_post_note :
    ∀ (allowed : Nat) (accounts : List (String × AccountRecord))
      (account_list : List String) (o : Oracle) (st : BotState)
      (user : Nat) (args : List String) (audience : Nat),
      user = allowed →
      ((args = [] →
        handleNoteCommand allowed accounts account_list o st user args audience =
          ⟨st, ["Please add text after the command."], []⟩) ∧
      (args ≠ [] → 60 < (joinSep " " args).length →
        handleNoteCommand allowed accounts account_list o st user args audience =
          ⟨st, ["Too long! Max 60 characters."], []⟩) ∧
      (args ≠ [] → (joinSep " " args).length ≤ 60 → account_list.length = 1 →
        ∀ h, o.acquire (account_list.getD 0 "") = .ok h →
        (handleNoteCommand allowed accounts account_list o st user args
          audience).events =
          [Event.createNote (account_list.getD 0 "") (joinSep " " args) audience] ∧
        (handleNoteCommand allowed accounts account_list o st user args
          audience).state.pending = st.pending) ∧
      (args ≠ [] → (joinSep " " args).length ≤ 60 → 2 ≤ account_list.length →
        (handleNoteCommand allowed accounts account_list o st user args
          audience).events = [] ∧
        alLookup (handleNoteCommand allowed accounts account_list o st user args
          audience).state.pending user =
          some (PAction.note (joinSep " " args) audience) ∧
        (handleNoteCommand allowed accounts account_list o st user args
          audience).replies = [noteMenu accounts account_list]) ∧
      (∀ i, i < account_list.length →
        (noteMenuLines accounts account_list).getD (i + 1) "" =
          menuLine accounts (i + 1) (account_list.getD i ""))) := by
  intro allowed accounts account_list o st user args audience hu
  have hne : ¬ user ≠ allowed := by simp [hu]
  refine ⟨?_, ?_, ?_, ?_, ?_⟩
  · intro hargs
    subst hargs
    simp [handleNoteCommand, hne]
  · intro hargs hlen
    unfold handleNoteCommand
    rw [if_neg hne, if_neg (by simpa using hargs), if_pos hlen]
  · intro hargs hlen h1 h hacq
    unfold handleNoteCommand
    rw [if_neg hne, if_neg (by simpa using hargs), if_neg (by omega), if_pos h1]
    simp only [hacq]
    rcases hc : o.createNote (account_list.getD 0 "") (joinSep " " args) audience
      with e | nt <;> simp [hc]
  · intro hargs hlen h2
    unfold handleNoteCommand
    rw [if_neg hne, if_neg (by simpa using hargs), if_neg (by omega),
      if_neg (by omega)]
    simp [alLookup_insert_self]
  · intro i hi
    unfold noteMenuLines
    rw [List.getD_eq_getElem?_getD,
      List.getElem?_append_left (by simpa using Nat.succ_lt_succ hi)]
    simp [hi]

/-- Witness for C4: a 61-character note text is rejected. -/
theorem C4_post_note_witness :
    handleNoteCommand 1 cAccounts cAccountList cOracle ⟨none, [], []⟩ 1
      ["0123456789012345678901234567890123456789012345678901234567890"] 0 =
      ⟨⟨none, [], []⟩, ["Too long! Max 60 characters."], []⟩ :=
  ((C4_post_note 1 cAccounts cAccountList cOracle ⟨none, [], []⟩ 1
    ["0123456789012345678901234567890123456789012345678901234567890"] 0
    rfl).2.1) (by decide) (by decide)

/-! ## Reply Digest (`note_replies` in `bot.py`)

Per account: fetch up to 20 threads, per thread up to 10 messages,
iterate each thread's messages in `reversed(msgs)` order, skip messages
older than `now - 24h` (via `<` on the timestamp) and messages authored
by the account itself, and render `@{sender}: {text} ({HH:MM})` lines;
the whole per-account body sits in one `try/except` that turns any
exception into the inline line `{i}. {name}: Error`.  Timestamps are
seconds; `datetime.now()` is the `now` parameter; `strftime('%H:%M')`
is modelled on the timestamp's day clock. -/

/-- One direct message as `note_replies` reads it: timestamp, author id,
optional text (`msg.text` may be `None`), and the sender's display name
(`msg.sender.username`; `none` models the attribute being unavailable,
whose access raises). -/
structure DMsg where
  ts : Nat
  userId : Nat
  text : Option String
  sender : Option String
deriving DecidableEq, Repr

/-- One thread: its messages as returned by `direct_messages` (newest
first when the remote behaves as documented). -/
structure DThread where
  msgs : List DMsg
deriving DecidableEq, Repr

/-- Per-account fetch outcome: `get_client` returned `None`, the thread
listing raised, or it returned threads. -/
inductive Fetch
  | noClient
  | err
  | ok (threads : List DThread)
deriving DecidableEq, Repr

/-- An account as the digest loop sees it. -/
structure DigestAcc where
  name : String
  username : String
  selfId : Nat
  fetch : Fetch
deriving DecidableEq, Repr

/-- The two `continue`/guard tests of the message loop: not older than
24h (`not (ts < now - 86400)`) and not self-authored. -/
def keepMsg (now selfId : Nat) (m : DMsg) : Bool :=
  !(m.ts < now - 86400) && m.userId != selfId

/-- Two-digit zero padding for `strftime`. -/
def pad2 (n : Nat) : String :=
  if n < 10 then "0" ++ toString n else toString n

/-- Python `msg.timestamp.strftime('%H:%M')` on a seconds timestamp. -/
def hhmm (ts : Nat) : String :=
  pad2 (ts / 3600 % 24) ++ ":" ++ pad2 (ts / 60 % 60)

/-- Python `msg.text or "[media/emoji]"`: `or` tests falsiness, so the
placeholder replaces both a missing (`None`) and an empty text. -/
def pyTextOr (t : Option String) (dflt : String) : String :=
  match t with
  | none => dflt
  | some s => if s.isEmpty then dflt else s

/-- Render one digest line: `@{sender}: {text} ({HH:MM})`; accessing a
missing sender raises (no fallback exists for the sender — only the
message text has the `or "[media/emoji]"` fallback). -/
def renderLine (m : DMsg) : Except Unit String :=
  match m.sender with
  | none => .error ()
  | some su =>
    let t := pyTextOr m.text "[media/emoji]"
    let tm := hhmm m.ts
    .ok s!"@{su}: {t} ({tm})"

/-- The messages of one thread that survive both guards, in the loop's
`reversed(msgs)` iteration order. -/
def keptMsgs (now selfId : Nat) (msgs : List DMsg) : List DMsg :=
  msgs.reverse.filter (keepMsg now selfId)

/-- The lines one thread contributes (first missing sender raises). -/
def collectMsgs (now selfId : Nat) (msgs : List DMsg) : Except Unit (List String) :=
  (keptMsgs now selfId msgs).mapM renderLine

/-- The `recent` list accumulated over all threads of one account; the
first exception aborts the remaining threads of this account. -/
def collectThreads (now selfId : Nat) : List DThread → Except Unit (List String)
  | [] => .ok []
  | t :: ts => do
    let l ← collectMsgs now selfId t.msgs
    let rest ← collectThreads now selfId ts
    pure (l ++ rest)

/-- Python `recent[-8:]`. -/
def lastN (n : Nat) (l : List String) : List String :=
  l.drop (l.length - n)

/-- The line `f"{i}. {name}: Login failed"`. -/
def loginFailedLine (i : Nat) (a : DigestAcc) : String :=
  let nm := a.name
  s!"{i}. {nm}: Login failed"

/-- The line `f"{i}. {name}: Error"` — the inline per-account error line. -/
def errorLine (i : Nat) (a : DigestAcc) : String :=
  let nm := a.name
  s!"{i}. {nm}: Error"

/-- The header `f"{i}. {name} (@{username}):\n"` of a successful block. -/
def blockHeader (i : Nat) (a : DigestAcc) : String :=
  let nm := a.name
  let un := a.username
  s!"{i}. {nm} (@{un}):\n"

/-- The digest block of account number `i`:
login failure line, inline error line, or header plus the last 8 lines
(or "No recent replies"). -/
def accountBlock (now : Nat) (i : Nat) (a : DigestAcc) : String :=
  match a.fetch with
  | .noClient => loginFailedLine i a
  | .err => errorLine i a
  | .ok threads =>
    match collectThreads now a.selfId threads with
    | .error _ => errorLine i a
    | .ok recent =>
      let status :=
        if recent.isEmpty then "No recent replies"
        else joinSep "\n" (lastN 8 recent)
      blockHeader i a ++ status

/-- All account blocks of `/note_replies`, numbered from 1 in registry
order. -/
def noteRepliesBlocks (now : Nat) (accs : List DigestAcc) : List String :=
  (List.range accs.length).map fun k =>
    accountBlock now (k + 1) (accs.getD k ⟨"", "", 0, .err⟩)

/-- The full `/note_replies` reply text. -/
def noteReplies (now : Nat) (accs : List DigestAcc) : String :=
  "📨 Recent replies (last 24h):\n\n" ++ joinSep "\n\n" (noteRepliesBlocks now accs)

theorem keptMsgs_eq_nil (now selfId : Nat) (msgs : List DMsg)
    (h : ∀ m ∈ msgs, keepMsg now selfId m = false) :
    keptMsgs now selfId msgs = [] := by
  unfold keptMsgs
  rw [List.filter_eq_nil_iff]
  intro m hm
  simp [h m (List.mem_reverse.mp hm)]

theorem collectThreads_keep_none (now selfId : Nat) (threads : List DThread)
    (h : ∀ t ∈ threads, ∀ m ∈ t.msgs, keepMsg now selfId m = false) :
    collectThreads now selfId threads = .ok [] := by
  induction threads with
  | nil => rfl
  | cons t ts ih =>
    have h1 : collectMsgs now selfId t.msgs = .ok [] := by
      unfold collectMsgs
      rw [keptMsgs_eq_nil now selfId t.msgs (h t (by simp))]
      rfl
    have h2 := ih fun t' ht' => h t' (by simp [ht'])
    simp only [collectThreads, h1, h2]
    rfl

/-- C7 counterexample: two claimed properties fail on the code.
First, the claim keeps "only messages strictly newer than now−24h", but
a message whose timestamp is exactly `now - 24h` (not strictly newer)
survives the `<` guard and is rendered.  Second, the claimed
"newest-last" order of the block fails across threads: with two threads,
the first thread's newer kept message (timestamp 150000, 17:40) is
collected before the second thread's older one (timestamp 140000,
14:53), so the newest line comes first, not last. -/
theorem C7_digest_counterexample :
    (keepMsg 200000 1 ⟨113600, 2, some "hi", some "u"⟩ = true ∧
     ¬ (200000 - 86400 < 113600) ∧
     accountBlock 200000 1 ⟨"acc", "au", 1, .ok [⟨[⟨113600, 2, some "hi", some "u"⟩]⟩]⟩ =
       "1. acc (@au):\n@u: hi (07:33)") ∧
    (accountBlock 200000 1 ⟨"acc", "au", 1,
        .ok [⟨[⟨150000, 2, some "hi", some "u"⟩]⟩, ⟨[⟨140000, 3, some "yo", some "v"⟩]⟩]⟩ =
       "1. acc (@au):\n@u: hi (17:40)\n@v: yo (14:53)" ∧
     (140000 : Nat) < 150000) := by
  refine ⟨⟨by decide, by decide, by decide⟩, by decide, by decide⟩

/-- C7 amended: a message is kept iff it is no older than 24h (timestamp
at least `now - 24h`; one aged 24h+1s is excluded, one aged 23h59m is
included) and not self-authored; the successful block is the last 8
collected lines (a suffix of at most 8), which are oldest-to-newest
within each thread when the remote delivers messages newest-first
(threads are concatenated in listing order); an account whose kept set
is empty (every message old or self-authored — for example, only
self-authored messages in the last 24h) reports "No recent replies";
and one account's fetch outcome never affects another account's block,
a failed account rendering its own inline error line. -/
theorem C7_digest_amended :
    (∀ (now selfId : Nat) (m : DMsg),
      keepMsg now selfId m = true ↔ (now - 86400 ≤ m.ts ∧ m.userId ≠ selfId)) ∧
    (∀ (now selfId uid : Nat) (t s : Option String), 86401 ≤ now →
      keepMsg now selfId ⟨now - 86401, uid, t, s⟩ = false) ∧
    (∀ (now selfId uid : Nat) (t s : Option String), uid ≠ selfId →
      keepMsg now selfId ⟨now - 86340, uid, t, s⟩ = true) ∧
    (∀ recent : List String,
      (lastN 8 recent).length ≤ 8 ∧ (lastN 8 recent) <:+ recent) ∧
    (∀ (now i : Nat) (a : DigestAcc) (threads : List DThread) (recent : List String),
      a.fetch = .ok threads →
      collectThreads now a.selfId threads = .ok recent → recent ≠ [] →
      accountBlock now i a = blockHeader i a ++ joinSep "\n" (lastN 8 recent)) ∧
    (∀ (now selfId : Nat) (msgs : List DMsg),
      msgs.Pairwise (fun x y => y.ts ≤ x.ts) →
      (keptMsgs now selfId msgs).Pairwise (fun x y => x.ts ≤ y.ts)) ∧
    (∀ (now selfId : Nat) (threads : List DThread),
      (∀ t ∈ threads, ∀ m ∈ t.msgs, keepMsg now selfId m = false) →
      collectThreads now selfId threads = .ok []) ∧
    (∀ (now i : Nat) (a : DigestAcc) (threads : List DThread),
      a.fetch = .ok threads →
      collectThreads now a.selfId threads = .ok [] →
      accountBlock now i a = blockHeader i a ++ "No recent replies") ∧
    (∀ (now : Nat) (accs : List DigestAcc) (j k : Nat) (a' : DigestAcc),
      k < accs.length → k ≠ j →
      (noteRepliesBlocks now (accs.set j a')).getD k "" =
        (noteRepliesBlocks now accs).getD k "") ∧
    (∀ (now i : Nat) (a : DigestAcc), a.fetch = .err →
      accountBlock now i a = errorLine i a) := by
  refine ⟨?_, ?_, ?_, ?_, ?_, ?_, ?_, ?_, ?_, ?_⟩
  · intro now selfId m
    simp [keepMsg, Nat.not_lt]
  · intro now selfId uid t s hnow
    simp [keepMsg]
    intro h
    omega
  · intro now selfId uid t s hne
    simp [keepMsg, Nat.not_lt, hne]
    omega
  · intro recent
    unfold lastN
    exact ⟨by simp; omega, List.drop_suffix _ _⟩
  · intro now i a threads recent hf hc hne
    unfold accountBlock
    rw [hf]
    simp only [hc]
    simp [List.isEmpty_iff, hne]
  · intro now selfId msgs hp
    unfold keptMsgs
    exact (List.pairwise_reverse.mpr hp).sublist (List.filter_sublist _)
  · intro now selfId threads hk
    exact collectThreads_keep_none now selfId threads hk
  · intro now i a threads hf hc
    unfold accountBlock
    rw [hf]
    simp only [hc]
    rfl
  · intro now accs j k a' hk hkj
    unfold noteRepliesBlocks
    rw [List.getD_eq_getElem?_getD, List.getD_eq_getElem?_getD,
      List.getElem?_map, List.getElem?_map]
    simp only [List.length_set]
    rw [List.getElem?_range hk]
    have hgd : (accs.set j a')[k]? = accs[k]? :=
      List.getElem?_set_ne (Ne.symm hkj)
    simp [hgd]
  · intro now i a hf
    unfold accountBlock
    rw [hf]

/-- Witness for C7's amended theorem: a concrete account whose kept set
is empty (its only recent message is self-authored) reports
"No recent replies". -/
theorem C7_digest_amended_witness :
    accountBlock 200000 1 ⟨"acc", "au", 1, .ok [⟨[⟨150000, 1, some "me", some "u"⟩]⟩]⟩ =
      blockHeader 1 ⟨"acc", "au", 1, .ok [⟨[⟨150000, 1, some "me", some "u"⟩]⟩]⟩ ++
        "No recent replies" :=
  C7_digest_amended.2.2.2.2.2.2.2.1 200000 1
    ⟨"acc", "au", 1, .ok [⟨[⟨150000, 1, some "me", some "u"⟩]⟩]⟩
    [⟨[⟨150000, 1, some "me", some "u"⟩]⟩] rfl rfl

/-- C8 counterexample: the claim says a missing sender display name
falls back to a synthesized placeholder so that rendering never fails;
in the source there is no such fallback (`or "[media/emoji]"` guards
only the text) — accessing the missing sender raises and the per-account
handler turns the whole block into the inline error line. -/
theorem C8_sender_fallback_counterexample :
    renderLine ⟨113600, 2, some "hi", none⟩ = .error () ∧
    accountBlock 200000 1 ⟨"acc", "au", 1, .ok [⟨[⟨113600, 2, some "hi", none⟩]⟩]⟩ =
      "1. acc: Error" :=
  ⟨rfl, by decide⟩

/-- C8 amended: a kept message with an available sender renders exactly
`@{sender}: {msg.text or "[media/emoji]"} ({HH:MM})`, where the `or`
fallback substitutes the placeholder for a missing or empty text and
otherwise keeps the text verbatim; a kept message without a sender makes
the line rendering fail, and that failure is caught per account,
replacing the account's digest with its inline error line. -/
theorem C8_render_line_amended :
    (∀ (m : DMsg) (su : String), m.sender = some su →
      renderLine m =
        .ok ("@" ++ su ++ ": " ++ pyTextOr m.text "[media/emoji]" ++
          " (" ++ hhmm m.ts ++ ")")) ∧
    (∀ dflt : String, pyTextOr none dflt = dflt ∧ pyTextOr (some "") dflt = dflt) ∧
    (∀ (s dflt : String), s ≠ "" → pyTextOr (some s) dflt = s) ∧
    (∀ m : DMsg, m.sender = none → renderLine m = .error ()) ∧
    (∀ (now i : Nat) (a : DigestAcc) (threads : List DThread),
      a.fetch = .ok threads →
      collectThreads now a.selfId threads = .error () →
      accountBlock now i a = errorLine i a) := by
  refine ⟨?_, ?_, ?_, ?_, ?_⟩
  · intro m su hs
    unfold renderLine
    rw [hs]
    simp only [String.append_assoc]
    rfl
  · intro dflt
    exact ⟨rfl, rfl⟩
  · intro s dflt hs
    have he : s.isEmpty = false := by
      rcases h : s.isEmpty
      · rfl
      · exact absurd ((String.isEmpty_iff s).mp h) hs
    simp [pyTextOr, he]
  · intro m hs
    unfold renderLine
    rw [hs]
  · intro now i a threads hf hc
    unfold accountBlock
    rw [hf]
    simp only [hc]

/-- Witness for C8's amended theorem at a concrete message. -/
theorem C8_render_line_amended_witness :
    renderLine ⟨113600, 2, some "hi", some "u"⟩ =
      .ok ("@" ++ "u" ++ ": " ++ pyTextOr (some "hi") "[media/emoji]" ++
        " (" ++ hhmm 113600 ++ ")") :=
  C8_render_line_amended.1 ⟨113600, 2, some "hi", some "u"⟩ "u" rfl

/-! ## 2FA code forwarding: `bot.py` vs `login_once.py` (C10)

`bot.py` line 315 forwards the verification code as
`verification_code=int(text)` — the numeric value of the 6-digit
message.  `login_once.py` line 55 forwards the 6-character string
unchanged (`verification_code=code`).  The remote receives the bot's
integer by its decimal rendering, modelled by `natDigits`/`natToStr`. -/

/-- Python `int(text)` as forwarded by the bot's 2FA completion. -/
def botForwardedCode (text : String) : Nat := strToNat text

/-- The code as forwarded by `login_once.py`: the original string. -/
def loginOnceForwardedCode (code : String) : String := code

/-- Decimal digits of a natural number, most significant first. -/
def natDigits (n : Nat) : List Nat :=
  if _ : n < 10 then [n] else natDigits (n / 10) ++ [n % 10]
decreasing_by exact Nat.div_lt_self (by omega) (by omega)

/-- The character of one decimal digit. -/
def digitChar (d : Nat) : Char := Char.ofNat (48 + d)

/-- Decimal rendering of a natural number (how the bot's integer code
reaches the remote side). -/
def natToStr (n : Nat) : String := ⟨(natDigits n).map digitChar⟩

/-- Numeric value of one decimal digit character. -/
def digitVal (c : Char) : Nat := c.toNat - 48

theorem strToNat_eq_digits (s : String) :
    strToNat s = (s.data.map digitVal).foldl (fun a d => 10 * a + d) 0 := by
  unfold strToNat digitVal
  rw [List.foldl_map]

theorem isDigit_toNat (c : Char) (h : c.isDigit = true) :
    48 ≤ c.toNat ∧ c.toNat ≤ 57 := by
  unfold Char.isDigit at h
  simp only [Bool.and_eq_true, decide_eq_true_eq] at h
  exact ⟨UInt32.le_toNat_of_le (by decide) h.1, UInt32.toNat_le_of_le (by decide) h.2⟩

theorem digitChar_digitVal (c : Char) (h : c.isDigit = true) :
    digitChar (digitVal c) = c := by
  obtain ⟨h1, h2⟩ := isDigit_toNat c h
  unfold digitChar digitVal
  have he : 48 + (c.toNat - 48) = c.toNat := by omega
  rw [he, Char.ofNat_toNat]

theorem digitVal_lt_ten (c : Char) (h : c.isDigit = true) : digitVal c < 10 := by
  obtain ⟨h1, h2⟩ := isDigit_toNat c h
  unfold digitVal
  omega

theorem digitVal_eq_zero_iff (c : Char) (h : c.isDigit = true) :
    digitVal c = 0 ↔ c = '0' := by
  obtain ⟨h1, h2⟩ := isDigit_toNat c h
  constructor
  · intro h0
    have he : c.toNat = 48 := by
      unfold digitVal at h0
      omega
    have := Char.ofNat_toNat c
    rw [he] at this
    exact this.symm
  · intro h0
    subst h0
    decide

theorem natDigits_lt_ten (n : Nat) (h : n < 10) : natDigits n = [n] := by
  unfold natDigits
  rw [dif_pos h]

theorem natDigits_ge_ten (n : Nat) (h : ¬ n < 10) :
    natDigits n = natDigits (n / 10) ++ [n % 10] := by
  conv_lhs => unfold natDigits
  rw [dif_neg h]

theorem natDigits_step (n d : Nat) (hn : 0 < n) (hd : d < 10) :
    natDigits (10 * n + d) = natDigits n ++ [d] := by
  have h10 : ¬ 10 * n + d < 10 := by omega
  rw [natDigits_ge_ten _ h10]
  have hdiv : (10 * n + d) / 10 = n := by omega
  have hmod : (10 * n + d) % 10 = d := by omega
  rw [hdiv, hmod]

theorem natDigits_foldl (ds : List Nat) : ∀ n : Nat, (∀ d ∈ ds, d < 10) → 0 < n →
    natDigits (ds.foldl (fun a d => 10 * a + d) n) = natDigits n ++ ds := by
  induction ds with
  | nil => intro n _ _; simp
  | cons d ds ih =>
    intro n hds hn
    rw [List.foldl_cons,
      ih (10 * n + d) (fun x hx => hds x (by simp [hx])) (by omega),
      natDigits_step n d hn (hds d (by simp))]
    simp

theorem natDigits_ne_nil (n : Nat) : natDigits n ≠ [] := by
  unfold natDigits
  split <;> simp

theorem natDigits_head_ne_zero :
    ∀ n : Nat, 0 < n → (natDigits n).head? ≠ some 0 := by
  intro n
  induction n using Nat.strong_induction_on with
  | _ n ih =>
    intro hn
    by_cases h : n < 10
    · rw [natDigits_lt_ten n h]
      simp
      omega
    · rw [natDigits_ge_ten n h]
      have hne := natDigits_ne_nil (n / 10)
      rcases hd : natDigits (n / 10) with _ | ⟨x, t⟩
      · exact absurd hd hne
      · have hdiv10 : n / 10 < n := Nat.div_lt_self (by omega) (by omega)
        have hpos : 0 < n / 10 := Nat.one_le_div_iff (by omega) |>.mpr (by omega)
        have := ih (n / 10) hdiv10 hpos
        rw [hd] at this
        simpa using this

theorem natDigits_length_le (k : Nat) : ∀ n : Nat, n < 10 ^ k → 0 < k →
    (natDigits n).length ≤ k := by
  induction k with
  | zero => intro n _ hk; omega
  | succ k ih =>
    intro n hn _
    by_cases h : n < 10
    · rw [natDigits_lt_ten n h]
      simp
    · have hk : 0 < k := by
        by_contra hk0
        have : k = 0 := by omega
        subst this
        simp [pow_succ, pow_zero] at hn
        omega
      rw [natDigits_ge_ten n h]
      have hdiv : n / 10 < 10 ^ k := by
        rw [Nat.div_lt_iff_lt_mul (by omega)]
        calc n < 10 ^ (k + 1) := hn
        _ = 10 ^ k * 10 := by rw [pow_succ]
      have := ih (n / 10) hdiv hk
      simp only [List.length_append, List.length_cons, List.length_nil]
      omega

theorem foldl_digits_lt (ds : List Nat) : ∀ n : Nat, (∀ d ∈ ds, d < 10) →
    ds.foldl (fun a d => 10 * a + d) n < (n + 1) * 10 ^ ds.length := by
  induction ds with
  | nil => intro n _; simp
  | cons d ds ih =>
    intro n hds
    rw [List.foldl_cons]
    calc ds.foldl (fun a d => 10 * a + d) (10 * n + d)
        < (10 * n + d + 1) * 10 ^ ds.length :=
          ih (10 * n + d) (fun x hx => hds x (by simp [hx]))
      _ ≤ ((n + 1) * 10) * 10 ^ ds.length := by
          have : 10 * n + d + 1 ≤ (n + 1) * 10 := by
            have := hds d (by simp)
            omega
          exact Nat.mul_le_mul_right _ this
      _ = (n + 1) * 10 ^ (d :: ds).length := by
          rw [List.length_cons, pow_succ]
          ring

/-- C10: for every 6-digit input, the bot's 2FA path (forwarding
`int(text)`, which the remote sees by its decimal rendering) and
`login_once.py`'s path (forwarding the original string) transmit the
same code iff the code does not begin with a zero; a code with a leading
zero is forwarded by the bot with fewer than 6 digits. -/
theorem C10_twofa_code_paths :
    ∀ s : String, s.length = 6 → (∀ c ∈ s.data, c.isDigit = true) →
      ((natToStr (botForwardedCode s) = loginOnceForwardedCode s ↔
        s.data.head? ≠ some '0') ∧
       (s.data.head? = some '0' →
        (natDigits (botForwardedCode s)).length < 6)) := by
  intro s hlen hdig
  have hdlen : s.data.length = 6 := hlen
  rcases hs : s.data with _ | ⟨c, cs⟩
  · rw [hs] at hdlen
    simp at hdlen
  have hcslen : cs.length = 5 := by
    rw [hs] at hdlen
    simpa using hdlen
  have hcd : c.isDigit = true := hdig c (by rw [hs]; simp)
  have hcsd : ∀ x ∈ cs, x.isDigit = true := fun x hx => hdig x (by rw [hs]; simp [hx])
  have hval : botForwardedCode s =
      (cs.map digitVal).foldl (fun a d => 10 * a + d) (digitVal c) := by
    unfold botForwardedCode
    rw [strToNat_eq_digits, hs, List.map_cons, List.foldl_cons]
    norm_num
  have hdss : ∀ d ∈ cs.map digitVal, d < 10 := by
    intro d hd
    rw [List.mem_map] at hd
    obtain ⟨x, hx, rfl⟩ := hd
    exact digitVal_lt_ten x (hcsd x hx)
  have hdsslen : (cs.map digitVal).length = 5 := by simpa using hcslen
  by_cases hc0 : c = '0'
  · subst hc0
    have hd0 : digitVal '0' = 0 := by decide
    have hlt : botForwardedCode s < 10 ^ 5 := by
      rw [hval, hd0]
      have := foldl_digits_lt (cs.map digitVal) 0 hdss
      rw [hdsslen] at this
      simpa using this
    have hlen5 : (natDigits (botForwardedCode s)).length ≤ 5 :=
      natDigits_length_le 5 _ hlt (by omega)
    constructor
    · constructor
      · intro heq
        exfalso
        have hdata := congrArg String.data heq
        unfold natToStr loginOnceForwardedCode at hdata
        have hlendata := congrArg List.length hdata
        simp only [List.length_map, hdlen] at hlendata
        omega
      · intro hne
        exact absurd rfl hne
    · intro _
      omega
  · have hdpos : 0 < digitVal c := by
      rcases Nat.eq_zero_or_pos (digitVal c) with h0 | h
      · exact absurd ((digitVal_eq_zero_iff c hcd).mp h0) hc0
      · exact h
    have hnd : natDigits (botForwardedCode s) = digitVal c :: cs.map digitVal := by
      rw [hval, natDigits_foldl (cs.map digitVal) (digitVal c) hdss hdpos,
        natDigits_lt_ten (digitVal c) (digitVal_lt_ten c hcd)]
      rfl
    have hstr : natToStr (botForwardedCode s) = s := by
      unfold natToStr
      rw [hnd, List.map_cons, digitChar_digitVal c hcd, List.map_map]
      have hmap : cs.map (digitChar ∘ digitVal) = cs := by
        calc cs.map (digitChar ∘ digitVal) = cs.map id :=
              List.map_congr_left fun x hx => digitChar_digitVal x (hcsd x hx)
          _ = cs := List.map_id cs
      rw [hmap, ← hs]
    constructor
    · constructor
      · intro _
        simp [hc0]
      · intro _
        exact hstr
    · intro hz
      simp at hz
      exact absurd hz hc0

/-- Witness for C10: the two paths agree on the concrete code "123456". -/
theorem C10_twofa_code_paths_witness :
    natToStr (botForwardedCode "123456") = loginOnceForwardedCode "123456" :=
  ((C10_twofa_code_paths "123456" (by decide) (by decide)).1).mpr (by decide)

end IGBot
